import Mathlib

/-!
Verification of the data aggregation and statistical summarization engine of
the Al-analysis repository.

The development embeds, as executable Lean definitions:
* the cell-value model (`src/types.ts`),
* the Column Profiler (`columnStats` in `src/views/DataStudio.tsx`),
* the CSV upload typing rule (`handleFileUpload` in `src/App.tsx`),
* a heap-level rendering of the profiler used for the no-mutation claim, and
* the Chart Data Dispatcher, modelled from the specification because its
  source file (`src/utils/chartUtils.ts`) is not part of the provided sources.

Machine numbers are modelled as exact rationals; the quantities compared in
the claims stay inside the range where IEEE doubles are exact, and `NaN` is
not representable in the model.
-/

/- Restore kernel computability of the core rational operations, so that the
concrete witnesses and counterexamples below can be checked by `decide`. -/
unseal Rat.add Rat.mul Rat.sub Rat.inv

namespace AlAnalysis

/-- Cell values of a `DataRow` (`src/types.ts`): `string | number | boolean |
null`, plus `undef` for the JavaScript `undefined` obtained by reading an
absent key. -/
inductive Value where
  | num  (q : ℚ)
  | str  (s : String)
  | bool (b : Bool)
  | null
  | undef
deriving DecidableEq, Repr

/-- A data row (`DataRow` in `src/types.ts`): a mapping from column name to
value, modelled as an association list. -/
abbrev Row := List (String × Value)

/-- JavaScript `row[k]`: the binding for the key, `undefined` when absent. -/
def getField (row : Row) (k : String) : Value :=
  match row.lookup k with
  | some v => v
  | none => Value.undef

/-- The missing-value test of the profiler (`DataStudio.tsx` line 187):
`val === null`, `val === undefined` or `val === ''`. -/
def isMissingV : Value → Bool
  | Value.null => true
  | Value.undef => true
  | Value.str "" => true
  | _ => false

/-- The boolean-ish test (`DataStudio.tsx` line 192): `typeof val ===
'boolean' || val === 'true' || val === 'false' || val === 0 || val === 1`. -/
def isBooleanishV : Value → Bool
  | Value.bool _ => true
  | Value.str s => s == "true" || s == "false"
  | Value.num q => q == 0 || q == 1
  | _ => false

/-- JavaScript `String(v)` on cell values.  Rational values are rendered with
Lean's canonical numeral form; no verified claim depends on the exact digits
of a numeric label. -/
def stringOfValue : Value → String
  | Value.num q => toString q
  | Value.str s => s
  | Value.bool true => "true"
  | Value.bool false => "false"
  | Value.null => "null"
  | Value.undef => "undefined"

/-! ### The Column Profiler (`columnStats` in `src/views/DataStudio.tsx`) -/

/-- `data.map(row => row[header])` (`DataStudio.tsx` line 186). -/
def allVals (data : List Row) (header : String) : List Value :=
  data.map fun row => getField row header

/-- `allValues.filter(val => val !== null && val !== undefined && val !== '')`
(`DataStudio.tsx` line 187). -/
def validVals (data : List Row) (header : String) : List Value :=
  (allVals data header).filter fun v => !isMissingV v

/-- `validValues.filter(val => typeof val === 'number' && !isNaN(val))`
(`DataStudio.tsx` line 190), projected to the carried rational. -/
def numericVals (data : List Row) (header : String) : List ℚ :=
  (validVals data header).filterMap fun v =>
    match v with
    | Value.num q => some q
    | _ => none

/-- `numericValues.length > 0 && (numericValues.length / validValues.length) >
0.5` (`DataStudio.tsx` line 191), in the exact integer form the real-number
comparison is equivalent to. -/
def isNumericCol (data : List Row) (header : String) : Bool :=
  decide (0 < (numericVals data header).length) &&
    decide ((validVals data header).length < 2 * (numericVals data header).length)

/-- `validValues.every(...)` boolean-ish test (`DataStudio.tsx` line 192). -/
def isBooleanCol (data : List Row) (header : String) : Bool :=
  (validVals data header).all isBooleanishV

/-- The inferred column type (`'number' | 'string' | 'boolean'`). -/
inductive ColType where
  | number
  | string
  | boolean
deriving DecidableEq, Repr

/-- The `ColumnStats` record (`DataStudio.tsx` lines 21-31). -/
structure ColumnStats where
  header : String
  type : ColType
  mean : Option ℚ := none
  median : Option ℚ := none
  min : Option Value := none
  max : Option Value := none
  validCount : Nat
  missingCount : Nat
  totalRows : Nat
deriving DecidableEq, Repr

/-- `[...numericValues].sort((a, b) => a - b)` (`DataStudio.tsx` line 205):
the ascending sort of the numeric values (unique as a list of rationals). -/
def sortedNums (data : List Row) (header : String) : List ℚ :=
  (numericVals data header).insertionSort (· ≤ ·)

/-- `numericValues.reduce((acc, curr) => acc + curr, 0)` (line 206). -/
def sumNums (data : List Row) (header : String) : ℚ :=
  (numericVals data header).foldl (· + ·) 0

/-- `sum / numericValues.length` (line 207), before rounding. -/
def meanRaw (data : List Row) (header : String) : ℚ :=
  sumNums data header / ((numericVals data header).length : ℚ)

/-- The median expression of lines 208-211, before rounding:
`mid = floor(len / 2)`; even length averages the two central sorted elements,
odd length takes the middle one. -/
def medianRaw (data : List Row) (header : String) : ℚ :=
  let sorted := sortedNums data header
  let n := (numericVals data header).length
  if n % 2 = 0 then (sorted.getD (n / 2 - 1) 0 + sorted.getD (n / 2) 0) / 2
  else sorted.getD (n / 2) 0

/-- `Number(x.toFixed(2))`: rounding to two decimal places; of the two nearest
candidates at a tie the larger is picked, as `toFixed` specifies.  The model
rounds the exact rational value. -/
def round2 (q : ℚ) : ℚ := ((⌊q * 100 + 1 / 2⌋ : ℤ) : ℚ) / 100

/-- The per-column body of the `columnStats` memo (`DataStudio.tsx`
lines 185-224). -/
def columnStat (data : List Row) (header : String) : ColumnStats :=
  let base : ColumnStats :=
    { header := header
      type :=
        if isNumericCol data header then ColType.number
        else if isBooleanCol data header then ColType.boolean
        else ColType.string
      validCount := (validVals data header).length
      missingCount := (allVals data header).length - (validVals data header).length
      totalRows := (allVals data header).length }
  if isNumericCol data header && decide (0 < (numericVals data header).length) then
    let sorted := sortedNums data header
    { base with
      mean := some (round2 (meanRaw data header))
      median := some (round2 (medianRaw data header))
      min := some (Value.num (sorted.getD 0 0))
      max := some (Value.num (sorted.getD (sorted.length - 1) 0)) }
  else if decide (0 < (validVals data header).length) then
    let sortedS := ((validVals data header).map stringOfValue).insertionSort (· ≤ ·)
    { base with
      min := some (Value.str (sortedS.getD 0 ""))
      max := some (Value.str (sortedS.getD (sortedS.length - 1) "")) }
  else base

/-- The `columnStats` memo (`DataStudio.tsx` lines 181-226): an empty row set
short-circuits to an empty list, otherwise one `ColumnStats` per header. -/
def columnStats (data : List Row) (headers : List String) : List ColumnStats :=
  if data.length = 0 then []
  else headers.map (columnStat data)

/-! ### Projection lemmas for `columnStat` -/

theorem columnStat_counts (data : List Row) (header : String) :
    (columnStat data header).validCount = (validVals data header).length ∧
    (columnStat data header).missingCount
        = (allVals data header).length - (validVals data header).length ∧
    (columnStat data header).totalRows = (allVals data header).length := by
  unfold columnStat
  dsimp only
  split
  · exact ⟨rfl, rfl, rfl⟩
  · split
    · exact ⟨rfl, rfl, rfl⟩
    · exact ⟨rfl, rfl, rfl⟩

theorem columnStat_type_eq (data : List Row) (header : String) :
    (columnStat data header).type =
      (if isNumericCol data header then ColType.number
       else if isBooleanCol data header then ColType.boolean
       else ColType.string) := by
  unfold columnStat
  dsimp only
  split
  · rfl
  · split
    · rfl
    · rfl

theorem length_filter_not_add_countP (l : List Value) :
    (l.filter fun v => !isMissingV v).length + l.countP (fun v => isMissingV v) = l.length := by
  induction l with
  | nil => simp
  | cons a t ih =>
    by_cases h : isMissingV a
    · simp [List.countP_cons, h, List.filter_cons]
      omega
    · simp [List.countP_cons, h, List.filter_cons]
      omega

/-- C2: for every non-empty dataset and every column, the `ColumnStats` record
produced by the Column Profiler satisfies `validCount + missingCount =
totalCount`, the total count is the number of rows, and a cell counts as
missing exactly when it is null, undefined, or the empty string. -/
theorem C2_counts_invariant (data : List Row) (header : String) (hne : data ≠ []) :
    (columnStat data header).validCount + (columnStat data header).missingCount
        = (columnStat data header).totalRows
    ∧ (columnStat data header).totalRows = data.length
    ∧ (columnStat data header).missingCount
        = (allVals data header).countP (fun v => isMissingV v) := by
  obtain ⟨hv, hm, ht⟩ := columnStat_counts data header
  have hle : (validVals data header).length ≤ (allVals data header).length :=
    List.length_filter_le _ _
  have hcount := length_filter_not_add_countP (allVals data header)
  have hall : (allVals data header).length = data.length := by
    simp [allVals]
  refine ⟨?_, ?_, ?_⟩
  · rw [hv, hm, ht]; omega
  · rw [ht, hall]
  · rw [hm]
    unfold validVals
    omega

theorem C2_counts_invariant_witness :
    ([([("a", Value.num 1)]), ([("a", Value.null)])] : List Row) ≠ []
    ∧ ((columnStat [([("a", Value.num 1)]), ([("a", Value.null)])] "a").validCount
          + (columnStat [([("a", Value.num 1)]), ([("a", Value.null)])] "a").missingCount
        = (columnStat [([("a", Value.num 1)]), ([("a", Value.null)])] "a").totalRows
      ∧ (columnStat [([("a", Value.num 1)]), ([("a", Value.null)])] "a").totalRows
          = ([([("a", Value.num 1)]), ([("a", Value.null)])] : List Row).length
      ∧ (columnStat [([("a", Value.num 1)]), ([("a", Value.null)])] "a").missingCount
          = (allVals [([("a", Value.num 1)]), ([("a", Value.null)])] "a").countP
              (fun v => isMissingV v)) :=
  ⟨by decide, C2_counts_invariant [([("a", Value.num 1)]), ([("a", Value.null)])] "a" (by decide)⟩

/-- C10: in a non-empty dataset, a column whose cells are all missing is
classified `boolean`: the `every`-test passes vacuously over the empty list of
valid values while the numeric test demands at least one numeric value. -/
theorem C10_all_missing_is_boolean (data : List Row) (header : String)
    (hne : data ≠ []) (hmiss : ∀ r ∈ data, isMissingV (getField r header)) :
    (columnStat data header).type = ColType.boolean := by
  have hvalid : validVals data header = [] := by
    unfold validVals
    rw [List.filter_eq_nil]
    intro v hv
    simp only [allVals, List.mem_map] at hv
    obtain ⟨r, hr, rfl⟩ := hv
    simp [hmiss r hr]
  have hnum : numericVals data header = [] := by
    unfold numericVals
    rw [hvalid]
    rfl
  rw [columnStat_type_eq]
  have h1 : isNumericCol data header = false := by
    unfold isNumericCol
    rw [hnum]
    simp
  have h2 : isBooleanCol data header = true := by
    unfold isBooleanCol
    rw [hvalid]
    rfl
  rw [h1, h2]
  rfl

theorem C10_all_missing_is_boolean_witness :
    ([([("a", Value.null)]), ([("a", Value.str "")])] : List Row) ≠ []
    ∧ (columnStat [([("a", Value.null)]), ([("a", Value.str "")])] "a").type
        = ColType.boolean :=
  ⟨by decide,
   C10_all_missing_is_boolean [([("a", Value.null)]), ([("a", Value.str "")])] "a"
     (by decide) (by decide)⟩

/-! ### JavaScript string-to-number semantics (decimal fragment)

`handleFileUpload` types CSV cells with `parseFloat` and `Number`.  The model
covers the ECMAScript string grammars: for `Number`, `StringNumericLiteral`
(the empty string, a signed decimal literal `[+-]? (digits ('.' digits?)? |
'.' digits) ([eE] [+-]? digits)?`, the signed `Infinity` keyword, or an
unsigned non-decimal `0x`/`0o`/`0b` integer literal); for `parseFloat`, the
longest prefix matching the signed decimal alternatives only — so
`parseFloat("0x10")` is `0`, the prefix `"0"`.  Finite values are exact
rationals; signed infinities are explicit; `NaN` is `Option.none`. -/

/-- A JavaScript number as produced by the string-to-number conversions: a
finite value or a signed infinity (`NaN` appears only as `Option.none` at the
parsers' interfaces and is never stored in a cell). -/
inductive JsNum where
  | fin (q : ℚ)
  | posInf
  | negInf
deriving DecidableEq, Repr

/-- Whitespace for `trim` / leading-skip of `parseFloat`. -/
def isWS (c : Char) : Bool := c.isWhitespace

/-- Numeric value of a digit string. -/
def digitsToNat (cs : List Char) : Nat :=
  cs.foldl (fun a c => a * 10 + (c.toNat - ('0').toNat)) 0

/-- The optional exponent part `([eE] [+-]? digits)`.  Returns the exponent and
the unconsumed rest; when no complete exponent follows, nothing is consumed
(longest-match backtracking, so `parseFloat("1e")` is `1`). -/
def parseExpPart (cs : List Char) : ℤ × List Char :=
  match cs with
  | 'e' :: rest =>
      match rest with
      | '+' :: r2 =>
          let p := r2.span fun c => c.isDigit
          if p.1.isEmpty then (0, cs) else ((digitsToNat p.1 : ℤ), p.2)
      | '-' :: r2 =>
          let p := r2.span fun c => c.isDigit
          if p.1.isEmpty then (0, cs) else (-(digitsToNat p.1 : ℤ), p.2)
      | _ =>
          let p := rest.span fun c => c.isDigit
          if p.1.isEmpty then (0, cs) else ((digitsToNat p.1 : ℤ), p.2)
  | 'E' :: rest =>
      match rest with
      | '+' :: r2 =>
          let p := r2.span fun c => c.isDigit
          if p.1.isEmpty then (0, cs) else ((digitsToNat p.1 : ℤ), p.2)
      | '-' :: r2 =>
          let p := r2.span fun c => c.isDigit
          if p.1.isEmpty then (0, cs) else (-(digitsToNat p.1 : ℤ), p.2)
      | _ =>
          let p := rest.span fun c => c.isDigit
          if p.1.isEmpty then (0, cs) else ((digitsToNat p.1 : ℤ), p.2)
  | _ => (0, cs)

/-- The unsigned mantissa `digits ('.' digits?)? | '.' digits`; `none` when no
prefix of the input starts a decimal literal. -/
def parseMantissa (cs : List Char) : Option (ℚ × List Char) :=
  let ip := cs.span fun c => c.isDigit
  match hip : ip.1 with
  | [] =>
      match ip.2 with
      | '.' :: r2 =>
          let fp := r2.span fun c => c.isDigit
          if fp.1.isEmpty then none
          else some ((digitsToNat fp.1 : ℚ) / (10 : ℚ) ^ fp.1.length, fp.2)
      | _ => none
  | _ :: _ =>
      match ip.2 with
      | '.' :: r2 =>
          let fp := r2.span fun c => c.isDigit
          some ((digitsToNat ip.1 : ℚ) + (digitsToNat fp.1 : ℚ) / (10 : ℚ) ^ fp.1.length, fp.2)
      | _ => some ((digitsToNat ip.1 : ℚ), ip.2)

/-- The `"Infinity"` keyword alternative of `StrUnsignedDecimalLiteral`. -/
def infinityPrefix : List Char → Option (List Char)
  | 'I' :: 'n' :: 'f' :: 'i' :: 'n' :: 'i' :: 't' :: 'y' :: rest => some rest
  | _ => none

/-- Longest-prefix parse of a signed `StrUnsignedDecimalLiteral`: the
`Infinity` keyword, or a decimal mantissa with optional exponent.  Returns the
JavaScript number and the unconsumed rest; `none` when no prefix is a decimal
literal. -/
def parseDecPrefix (cs : List Char) : Option (JsNum × List Char) :=
  let sp : Bool × List Char :=
    match cs with
    | '-' :: r => (true, r)
    | '+' :: r => (false, r)
    | _ => (false, cs)
  match infinityPrefix sp.2 with
  | some rest => some (if sp.1 then JsNum.negInf else JsNum.posInf, rest)
  | none =>
      match parseMantissa sp.2 with
      | none => none
      | some (m, r) =>
          let ep := parseExpPart r
          let u := if ep.1 < 0 then m / (10 : ℚ) ^ ep.1.natAbs else m * (10 : ℚ) ^ ep.1.natAbs
          some (JsNum.fin (if sp.1 then -u else u), ep.2)

def isHexDigit (c : Char) : Bool :=
  c.isDigit || ('a' ≤ c && c ≤ 'f') || ('A' ≤ c && c ≤ 'F')

def isOctDigit (c : Char) : Bool := '0' ≤ c && c ≤ '7'

def isBinDigit (c : Char) : Bool := c == '0' || c == '1'

def hexDigitVal (c : Char) : Nat :=
  if c.isDigit then c.toNat - ('0').toNat
  else if 'a' ≤ c then c.toNat - ('a').toNat + 10
  else c.toNat - ('A').toNat + 10

def baseDigitsVal (base : Nat) (dv : Char → Nat) (cs : List Char) : Nat :=
  cs.foldl (fun a c => a * base + dv c) 0

/-- Full-string JavaScript `NonDecimalIntegerLiteral` (`0x`/`0X` hexadecimal,
`0o`/`0O` octal, `0b`/`0B` binary digits); unsigned only, as in the `Number`
grammar — `Number("-0x10")` is `NaN`. -/
def parseNonDecimal (cs : List Char) : Option ℚ :=
  match cs with
  | '0' :: p :: rest =>
      if p = 'x' ∨ p = 'X' then
        if rest ≠ [] ∧ rest.all isHexDigit then
          some ((baseDigitsVal 16 hexDigitVal rest : ℕ) : ℚ)
        else none
      else if p = 'o' ∨ p = 'O' then
        if rest ≠ [] ∧ rest.all isOctDigit then
          some ((baseDigitsVal 8 (fun c => c.toNat - ('0').toNat) rest : ℕ) : ℚ)
        else none
      else if p = 'b' ∨ p = 'B' then
        if rest ≠ [] ∧ rest.all isBinDigit then
          some ((baseDigitsVal 2 (fun c => c.toNat - ('0').toNat) rest : ℕ) : ℚ)
        else none
      else none
  | _ => none

/-- `trim` on character data: drop whitespace at both ends. -/
def trimList (cs : List Char) : List Char :=
  ((cs.dropWhile isWS).reverse.dropWhile isWS).reverse

/-- JavaScript `String.prototype.trim`. -/
def trimS (s : String) : String := ⟨trimList s.data⟩

/-- JavaScript `parseFloat`: skip leading whitespace, take the longest
decimal-literal prefix (including `Infinity`, never a hexadecimal form — on
`"0x10"` it parses the prefix `"0"`), ignore trailing garbage; `none` models
`NaN`. -/
def parseFloatJS (s : String) : Option JsNum :=
  (parseDecPrefix (s.data.dropWhile isWS)).map (·.1)

/-- JavaScript `Number(string)` (`StringNumericLiteral`): trim; the empty
string gives `0`; otherwise the whole string must be an unsigned non-decimal
integer literal (`0x`/`0o`/`0b`) or one signed decimal literal (including the
`Infinity` keyword); `none` models `NaN`. -/
def numberJS (s : String) : Option JsNum :=
  let cs := trimList s.data
  if cs.isEmpty then some (JsNum.fin 0)
  else
    match parseNonDecimal cs with
    | some q => some (JsNum.fin q)
    | none =>
        match parseDecPrefix cs with
        | some (n, []) => some n
        | _ => none

/-! ### The CSV upload pipeline (`src/App.tsx` lines 383-428) -/

/-- A cell as typed by the upload pipeline: JavaScript `string | number |
null`, where the stored number may be an infinity (e.g. from the field
`"Infinity"`); `NaN` is never stored, since the `isNaN` guards keep the
text. -/
inductive UpValue where
  | num (n : JsNum)
  | str (s : String)
  | null
deriving DecidableEq, Repr

/-- A row as built by the upload pipeline. -/
abbrev UpRow := List (String × UpValue)

/-- One cell of `handleFileUpload` (`App.tsx` lines 411-419): an `undefined`
field becomes `null`; otherwise
`row[h] = (isNaN(num) || val.trim() === '' || isNaN(Number(val))) ? val : num`
with `num = parseFloat(val)`. -/
def parseCell : Option String → UpValue
  | none => UpValue.null
  | some val =>
      match parseFloatJS val with
      | none => UpValue.str val
      | some num =>
          if trimS val = "" ∨ (numberJS val).isNone then UpValue.str val
          else UpValue.num num

/-- Drop one leading double quote. -/
def dropLeadQuote : List Char → List Char
  | '"' :: t => t
  | l => l

/-- `.replace(/^"|"$/g, '')`: removes one leading and one trailing double
quote. -/
def stripEdgeQuotes (s : String) : String :=
  ⟨(dropLeadQuote (dropLeadQuote s.data).reverse).reverse⟩

/-- Finalizing a CSV field: `curVal.trim().replace(/^"|"$/g, '')`. -/
def csvField (cur : List Char) : String := stripEdgeQuotes (trimS ⟨cur⟩)

/-- The loop of `parseCSVLine` (`App.tsx` lines 383-400): `"` toggles the
in-quotes flag, `,` outside quotes closes a field, anything else accumulates. -/
def parseCSVLineAux : List Char → List String → List Char → Bool → List String
  | [], res, cur, _ => res ++ [csvField cur]
  | c :: cs, res, cur, inQ =>
      if c = '"' then parseCSVLineAux cs res cur (!inQ)
      else if c = ',' ∧ inQ = false then parseCSVLineAux cs (res ++ [csvField cur]) [] inQ
      else parseCSVLineAux cs res (cur ++ [c]) inQ

/-- `parseCSVLine` (`App.tsx` lines 383-400). -/
def parseCSVLine (line : String) : List String :=
  parseCSVLineAux line.data [] [] false

/-- Duplicate headers behave like repeated JavaScript object assignment: the
later assignment wins. -/
def rowInsert (row : UpRow) (k : String) (v : UpValue) : UpRow :=
  if k ∈ row.map Prod.fst then row.map fun p => if p.1 = k then (k, v) else p
  else row ++ [(k, v)]

/-- `headers.forEach((h, i) => { ... row[h] = ... })` (`App.tsx`
lines 411-419): build one typed row from the split field list. -/
def buildRow (headers : List String) (values : List String) : UpRow :=
  headers.enum.foldl (fun row p => rowInsert row p.2 (parseCell (values.get? p.1))) []

/-- `text.split(/\r?\n/)`: split on newlines, dropping one trailing carriage
return per line. -/
def dropTrailingCR (s : String) : String :=
  match s.data.reverse with
  | '\r' :: t => ⟨t.reverse⟩
  | _ => s

/-- Segments of a character list between `'\n'` separators (the semantics of
`String.split` on newline, kept kernel-computable). -/
def splitCharsAux : List Char → List Char → List (List Char)
  | [], cur => [cur]
  | c :: cs, cur =>
      if c = '\n' then cur :: splitCharsAux cs []
      else splitCharsAux cs (cur ++ [c])

def splitLines (text : String) : List String :=
  (splitCharsAux text.data []).map fun l => dropTrailingCR ⟨l⟩

/-- The data-parsing part of `handleFileUpload` (`App.tsx` lines 402-428):
headers from the first nonblank line, typed rows from the rest; `none` when
the file has no nonblank lines. -/
def parseUpload (text : String) : Option (List String × List UpRow) :=
  let lines := (splitLines text).filter fun l => trimS l != ""
  match lines with
  | [] => none
  | hd :: tl =>
      let headers := parseCSVLine hd
      some (headers, tl.map fun line => buildRow headers (parseCSVLine line))

/-- C6 counterexample: in the upload `"a,b\n1,"` the `b` field is present but
empty; the parser stores the empty string, not `null`, so the claim that empty
fields are mapped to null fails. -/
theorem C6_counterexample :
    parseUpload "a,b\n1,"
        = some (["a", "b"], [[("a", UpValue.num (JsNum.fin 1)), ("b", UpValue.str "")]])
    ∧ UpValue.str "" ≠ UpValue.null := by
  constructor
  · decide
  · decide

theorem trimList_eq_self_front {cs : List Char} (h : trimList cs = cs) :
    cs.dropWhile isWS = cs := by
  have h1 : (trimList cs).length ≤ (cs.dropWhile isWS).length := by
    unfold trimList
    simp only [List.length_reverse]
    have := (List.dropWhile_suffix (l := (cs.dropWhile isWS).reverse) isWS).length_le
    simpa using this
  have h2 : (cs.dropWhile isWS).length ≤ cs.length :=
    (List.dropWhile_suffix isWS).length_le
  have h3 : (trimList cs).length = cs.length := by rw [h]
  exact (List.dropWhile_suffix isWS).eq_of_length (by omega)

theorem dropWhile_dropWhile_self (p : Char → Bool) (l : List Char) :
    (l.dropWhile p).dropWhile p = l.dropWhile p := by
  rw [List.dropWhile_eq_self_iff]
  intro hl
  have h := List.head?_dropWhile_not p l
  rw [List.head?_eq_head (by intro hc; rw [hc] at hl; simp at hl)] at h
  rw [List.get_mk_zero]
  simpa using h

theorem dropWhile_eq_self_of_prefix (p : Char → Bool) {X Y : List Char}
    (hXY : X <+: Y) (hY : Y.dropWhile p = Y) : X.dropWhile p = X := by
  cases X with
  | nil => rfl
  | cons x xs =>
    cases Y with
    | nil => exact absurd (List.prefix_nil.mp hXY) (by simp)
    | cons y ys =>
      have hx : x = y := by
        obtain ⟨t, ht⟩ := hXY
        injection ht with h1 _
      subst hx
      rw [List.dropWhile_cons] at hY ⊢
      by_cases hp : p x
      · rw [if_pos hp] at hY
        exfalso
        have hlen := congrArg List.length hY
        have hle := (List.dropWhile_suffix (l := ys) p).length_le
        simp at hlen
        omega
      · rw [if_neg hp]

theorem trimList_idem (cs : List Char) : trimList (trimList cs) = trimList cs := by
  have hA : (cs.dropWhile isWS).dropWhile isWS = cs.dropWhile isWS :=
    dropWhile_dropWhile_self isWS cs
  set A := cs.dropWhile isWS with hAdef
  set B := A.reverse.dropWhile isWS with hBdef
  have hBfront : B.dropWhile isWS = B := dropWhile_dropWhile_self isWS A.reverse
  have hBsuffix : B <:+ A.reverse := List.dropWhile_suffix isWS
  have hBrevPrefix : B.reverse <+: A := by
    have h := List.reverse_prefix.mpr hBsuffix
    rwa [List.reverse_reverse] at h
  have hstep1 : B.reverse.dropWhile isWS = B.reverse :=
    dropWhile_eq_self_of_prefix isWS hBrevPrefix hA
  show trimList B.reverse = B.reverse
  unfold trimList
  rw [hstep1, List.reverse_reverse, hBfront]

theorem mem_trimList_sub {c : Char} {cs : List Char} (h : c ∈ trimList cs) : c ∈ cs := by
  unfold trimList at h
  rw [List.mem_reverse] at h
  have h1 := (List.dropWhile_suffix (l := (cs.dropWhile isWS).reverse) isWS).subset h
  rw [List.mem_reverse] at h1
  exact (List.dropWhile_suffix isWS).subset h1

theorem dropLeadQuote_no_quote (l : List Char) (h : ('"') ∉ l) :
    dropLeadQuote l = l := by
  unfold dropLeadQuote
  split
  · exact absurd (List.mem_cons_self _ _) h
  · rfl

theorem stripEdgeQuotes_no_quote (s : String) (h : ('"') ∉ s.data) :
    stripEdgeQuotes s = s := by
  cases s with
  | mk d =>
    simp only at h
    unfold stripEdgeQuotes
    rw [dropLeadQuote_no_quote d h]
    rw [dropLeadQuote_no_quote d.reverse (by rwa [List.mem_reverse])]
    rw [List.reverse_reverse]

theorem csvField_trimmed (cur : List Char) (hq : ('"') ∉ cur) :
    trimS (csvField cur) = csvField cur := by
  unfold csvField
  rw [stripEdgeQuotes_no_quote]
  · exact congrArg String.mk (trimList_idem cur)
  · intro hc
    exact hq (mem_trimList_sub hc)

/-- Every field `parseCSVLine` produces is already trimmed (the source pushes
`curVal.trim().replace(...)`, and the quote characters never reach `curVal`),
so `C6_amended`'s hypothesis holds for every cell of an uploaded file. -/
theorem parseCSVLineAux_trimmed :
    ∀ (cs : List Char) (res : List String) (cur : List Char) (inQ : Bool),
      (∀ f ∈ res, trimS f = f) → ('"') ∉ cur →
      ∀ f ∈ parseCSVLineAux cs res cur inQ, trimS f = f := by
  intro cs
  induction cs with
  | nil =>
    intro res cur inQ hres hcur f hf
    unfold parseCSVLineAux at hf
    rcases List.mem_append.mp hf with h | h
    · exact hres f h
    · rw [List.mem_singleton] at h
      subst h
      exact csvField_trimmed cur hcur
  | cons c cs ih =>
    intro res cur inQ hres hcur f hf
    unfold parseCSVLineAux at hf
    split at hf
    · exact ih res cur (!inQ) hres hcur f hf
    · rename_i hc1
      split at hf
      · refine ih _ [] inQ ?_ (by simp) f hf
        intro g hg
        rcases List.mem_append.mp hg with h | h
        · exact hres g h
        · rw [List.mem_singleton] at h
          subst h
          exact csvField_trimmed cur hcur
      · refine ih res (cur ++ [c]) inQ hres ?_ f hf
        intro hm
        rcases List.mem_append.mp hm with h | h
        · exact hcur h
        · rw [List.mem_singleton] at h
          exact hc1 h.symm

theorem parseCSVLine_fields_trimmed (line : String) :
    ∀ f ∈ parseCSVLine line, trimS f = f := by
  intro f hf
  exact parseCSVLineAux_trimmed line.data [] [] false (by simp) (by simp) f hf

/-- A full non-decimal literal always has the shape `0?…`, and `parseFloat`'s
decimal-prefix parse of it stops right after the leading `0`. -/
theorem parseNonDecimal_shape (cs : List Char) (q : ℚ)
    (h : parseNonDecimal cs = some q) :
    ∃ p rest, cs = '0' :: p :: rest
      ∧ parseDecPrefix cs = some (JsNum.fin 0, p :: rest) := by
  unfold parseNonDecimal at h
  split at h
  · rename_i p rest
    by_cases hx : p = 'x' ∨ p = 'X'
    · rcases hx with rfl | rfl
      · refine ⟨'x', rest, rfl, ?_⟩
        rw [show parseDecPrefix ('0' :: 'x' :: rest)
            = some (JsNum.fin (if ((0 : ℤ) < 0) then (0 : ℚ) / (10 : ℚ) ^ ((0 : ℤ)).natAbs
                else (0 : ℚ) * (10 : ℚ) ^ ((0 : ℤ)).natAbs), 'x' :: rest) from rfl]
        norm_num
      · refine ⟨'X', rest, rfl, ?_⟩
        rw [show parseDecPrefix ('0' :: 'X' :: rest)
            = some (JsNum.fin (if ((0 : ℤ) < 0) then (0 : ℚ) / (10 : ℚ) ^ ((0 : ℤ)).natAbs
                else (0 : ℚ) * (10 : ℚ) ^ ((0 : ℤ)).natAbs), 'X' :: rest) from rfl]
        norm_num
    · rw [if_neg hx] at h
      by_cases ho : p = 'o' ∨ p = 'O'
      · rcases ho with rfl | rfl
        · refine ⟨'o', rest, rfl, ?_⟩
          rw [show parseDecPrefix ('0' :: 'o' :: rest)
              = some (JsNum.fin (if ((0 : ℤ) < 0) then (0 : ℚ) / (10 : ℚ) ^ ((0 : ℤ)).natAbs
                  else (0 : ℚ) * (10 : ℚ) ^ ((0 : ℤ)).natAbs), 'o' :: rest) from rfl]
          norm_num
        · refine ⟨'O', rest, rfl, ?_⟩
          rw [show parseDecPrefix ('0' :: 'O' :: rest)
              = some (JsNum.fin (if ((0 : ℤ) < 0) then (0 : ℚ) / (10 : ℚ) ^ ((0 : ℤ)).natAbs
                  else (0 : ℚ) * (10 : ℚ) ^ ((0 : ℤ)).natAbs), 'O' :: rest) from rfl]
          norm_num
      · rw [if_neg ho] at h
        by_cases hb : p = 'b' ∨ p = 'B'
        · rcases hb with rfl | rfl
          · refine ⟨'b', rest, rfl, ?_⟩
            rw [show parseDecPrefix ('0' :: 'b' :: rest)
                = some (JsNum.fin (if ((0 : ℤ) < 0) then (0 : ℚ) / (10 : ℚ) ^ ((0 : ℤ)).natAbs
                    else (0 : ℚ) * (10 : ℚ) ^ ((0 : ℤ)).natAbs), 'b' :: rest) from rfl]
            norm_num
          · refine ⟨'B', rest, rfl, ?_⟩
            rw [show parseDecPrefix ('0' :: 'B' :: rest)
                = some (JsNum.fin (if ((0 : ℤ) < 0) then (0 : ℚ) / (10 : ℚ) ^ ((0 : ℤ)).natAbs
                    else (0 : ℚ) * (10 : ℚ) ^ ((0 : ℤ)).natAbs), 'B' :: rest) from rfl]
            norm_num
        · rw [if_neg hb] at h
          exact absurd h (by simp)
  · exact absurd h (by simp)

/-- C6, amended: a field *absent* from the line maps to `null`, but a
present-and-empty field is kept as the empty string (which downstream code
treats as missing), not mapped to `null`.  A nonempty field is stored as a
number exactly when the whole trimmed field is a JavaScript numeric literal:
a decimal literal (including the `Infinity` keyword) is stored at its own
value, while a hexadecimal/octal/binary field such as `"0x10"` passes the
`isNaN(Number(val))` check yet is stored at `parseFloat`'s decimal-prefix
value `0`; every other field is kept as text.  The hypothesis that `v` is
already trimmed holds for every field produced by `parseCSVLine`
(`parseCSVLine_fields_trimmed`). -/
theorem C6_amended (v : String) (ht : trimS v = v) :
    (∀ n : JsNum, v ≠ "" → parseDecPrefix v.data = some (n, []) →
        parseCell (some v) = UpValue.num n)
    ∧ (∀ q : ℚ, parseNonDecimal v.data = some q →
        parseCell (some v) = UpValue.num (JsNum.fin 0))
    ∧ (numberJS v = none → parseCell (some v) = UpValue.str v)
    ∧ (parseFloatJS v = none → parseCell (some v) = UpValue.str v)
    ∧ parseCell (some "") = UpValue.str ""
    ∧ parseCell none = UpValue.null := by
  have hdata : trimList v.data = v.data := congrArg String.data ht
  have hfront : v.data.dropWhile isWS = v.data := trimList_eq_self_front hdata
  have hmt : ∀ s : String, s.data = [] → s = "" := by
    intro s hs
    cases s with
    | mk d => cases hs; rfl
  refine ⟨?_, ?_, ?_, ?_, by decide, rfl⟩
  · intro n hne hp
    have hnd : v.data ≠ [] := fun hd => hne (hmt v hd)
    have hpf : parseFloatJS v = some n := by
      unfold parseFloatJS
      rw [hfront, hp]
      rfl
    have hnb : (numberJS v).isNone = false := by
      unfold numberJS
      rw [hdata]
      simp only [List.isEmpty_iff]
      rw [if_neg hnd]
      rcases hq : parseNonDecimal v.data with _ | q
      · simp only [hp]
        rfl
      · rfl
    simp only [parseCell, hpf]
    rw [if_neg]
    push_neg
    refine ⟨by rw [ht]; exact hne, ?_⟩
    rw [hnb]
    simp
  · intro q hq
    obtain ⟨p, rest, hcs, hdec⟩ := parseNonDecimal_shape v.data q hq
    have hnd : v.data ≠ [] := by rw [hcs]; simp
    have hne : v ≠ "" := by
      intro hveq
      rw [hveq] at hcs
      exact absurd hcs (by simp)
    have hpf : parseFloatJS v = some (JsNum.fin 0) := by
      unfold parseFloatJS
      rw [hfront, hdec]
      rfl
    have hnb : (numberJS v).isNone = false := by
      unfold numberJS
      rw [hdata]
      simp only [List.isEmpty_iff]
      rw [if_neg hnd]
      simp only [hq]
      rfl
    simp only [parseCell, hpf]
    rw [if_neg]
    push_neg
    refine ⟨by rw [ht]; exact hne, ?_⟩
    rw [hnb]
    simp
  · intro hq
    rcases hp : parseFloatJS v with _ | n
    · simp only [parseCell, hp]
    · simp only [parseCell, hp]
      rw [if_pos (Or.inr (by rw [hq]; rfl))]
  · intro hq
    simp only [parseCell, hq]

theorem C6_amended_witness :
    trimS "3.5" = "3.5"
    ∧ parseCell (some "3.5") = UpValue.num (JsNum.fin (7 / 2))
    ∧ parseCell (some "0x10") = UpValue.num (JsNum.fin 0)
    ∧ parseCell (some "Infinity") = UpValue.num JsNum.posInf :=
  ⟨by decide,
   (C6_amended "3.5" (by decide)).1 (JsNum.fin (7 / 2)) (by decide) (by decide),
   (C6_amended "0x10" (by decide)).2.1 16 (by decide),
   (C6_amended "Infinity" (by decide)).1 JsNum.posInf (by decide) (by decide)⟩

/-! ### Column kind classification (C3) -/

/-- `asNumber` as the specification words it (section 4.1): a finite number
when the value is already numeric, or when a string parses fully as a decimal
number.  Stated for comparison with the profiler's own numeric test, which
checks `typeof val === 'number'` only. -/
def asNumber : Value → Option ℚ
  | Value.num q => some q
  | Value.str s =>
      match parseDecPrefix s.data with
      | some (JsNum.fin q, []) => some q
      | _ => none
  | _ => none

/-- A column whose three valid values are the numeric strings "1" "2" "3". -/
def exData3 : List Row :=
  [[("a", Value.str "1")], [("a", Value.str "2")], [("a", Value.str "3")]]

/-- C3 counterexample: every valid value of `exData3`'s column parses fully as
a decimal via `asNumber`, so the claim's majority test holds, yet the profiler
does not classify the column as numeric — the code counts only values of
JavaScript number type and never parses strings. -/
theorem C3_counterexample :
    (validVals exData3 "a").length
        < 2 * ((validVals exData3 "a").countP fun v => (asNumber v).isSome)
    ∧ (columnStat exData3 "a").type ≠ ColType.number := by
  constructor
  · decide
  · decide

/-- C3, amended: with at least one valid value, the profiler classifies the
column as numeric exactly when more than half of the valid values are already
numbers (string values are never parsed); otherwise boolean when every valid
value is boolean-ish; otherwise text. -/
theorem C3_amended (data : List Row) (header : String)
    (hv : 1 ≤ (validVals data header).length) :
    ((columnStat data header).type = ColType.number ↔
        (validVals data header).length < 2 * (numericVals data header).length)
    ∧ ((columnStat data header).type = ColType.boolean ↔
        ¬ (validVals data header).length < 2 * (numericVals data header).length
          ∧ (validVals data header).all isBooleanishV = true)
    ∧ ((columnStat data header).type = ColType.string ↔
        ¬ (validVals data header).length < 2 * (numericVals data header).length
          ∧ ¬ (validVals data header).all isBooleanishV = true) := by
  rw [columnStat_type_eq]
  have hiff : isNumericCol data header = true ↔
      (validVals data header).length < 2 * (numericVals data header).length := by
    unfold isNumericCol
    simp only [Bool.and_eq_true, decide_eq_true_eq]
    constructor
    · exact fun h => h.2
    · intro h
      exact ⟨by omega, h⟩
  by_cases hn : isNumericCol data header = true
  · have hc := hiff.mp hn
    simp [hn, hc]
  · have hc : ¬ (validVals data header).length < 2 * (numericVals data header).length :=
      fun h => hn (hiff.mpr h)
    rw [Bool.not_eq_true] at hn
    by_cases hb : isBooleanCol data header = true
    · unfold isBooleanCol at hb
      simp [hn, hb, hc, isBooleanCol]
    · rw [Bool.not_eq_true] at hb
      unfold isBooleanCol at hb
      simp [hn, hb, hc, isBooleanCol]

theorem C3_amended_witness :
    1 ≤ (validVals [[("a", Value.num 1)]] "a").length
    ∧ ((columnStat [[("a", Value.num 1)]] "a").type = ColType.number ↔
        (validVals [[("a", Value.num 1)]] "a").length
          < 2 * (numericVals [[("a", Value.num 1)]] "a").length) :=
  ⟨by decide, (C3_amended [[("a", Value.num 1)]] "a" (by decide)).1⟩

/-! ### Bounds on sorted lists, sums and rounding (C4, C5) -/

theorem sorted_getD_le (l : List ℚ) (hs : l.Sorted (· ≤ ·)) {i j : Nat}
    (hij : i ≤ j) (hj : j < l.length) : l.getD i 0 ≤ l.getD j 0 := by
  have hi : i < l.length := lt_of_le_of_lt hij hj
  rw [List.getD_eq_get l 0 hi, List.getD_eq_get l 0 hj]
  rcases Nat.eq_or_lt_of_le hij with rfl | hlt
  · exact le_refl _
  · exact List.pairwise_iff_get.mp hs ⟨i, hi⟩ ⟨j, hj⟩ hlt

theorem mem_sorted_bounds {l : List ℚ} (hs : l.Sorted (· ≤ ·)) {x : ℚ} (hx : x ∈ l) :
    l.getD 0 0 ≤ x ∧ x ≤ l.getD (l.length - 1) 0 := by
  obtain ⟨⟨i, hi⟩, rfl⟩ := List.mem_iff_get.mp hx
  have h1 : l.getD i 0 = l.get ⟨i, hi⟩ := List.getD_eq_get l 0 hi
  constructor
  · rw [← h1]
    exact sorted_getD_le l hs (Nat.zero_le i) hi
  · rw [← h1]
    exact sorted_getD_le l hs (by omega) (by omega)

theorem foldl_add_eq_sum (l : List ℚ) : ∀ c : ℚ, l.foldl (· + ·) c = c + l.sum := by
  induction l with
  | nil => intro c; simp
  | cons x t ih =>
    intro c
    simp only [List.foldl_cons, List.sum_cons, ih (c + x)]
    ring

theorem foldl_add_bounds (l : List ℚ) (a b : ℚ) (h : ∀ x ∈ l, a ≤ x ∧ x ≤ b) :
    (l.length : ℚ) * a ≤ l.foldl (· + ·) 0 ∧ l.foldl (· + ·) 0 ≤ (l.length : ℚ) * b := by
  rw [foldl_add_eq_sum l 0, zero_add]
  constructor
  · have := List.card_nsmul_le_sum l a fun x hx => (h x hx).1
    rwa [nsmul_eq_mul] at this
  · have := List.sum_le_card_nsmul l b fun x hx => (h x hx).2
    rwa [nsmul_eq_mul] at this

theorem round2_le_add (q : ℚ) : round2 q ≤ q + 1 / 200 := by
  unfold round2
  have h := Int.floor_le (q * 100 + 1 / 2)
  rw [div_le_iff (by norm_num : (0 : ℚ) < 100)]
  linarith

theorem sub_le_round2 (q : ℚ) : q - 1 / 200 ≤ round2 q := by
  unfold round2
  have h := Int.lt_floor_add_one (q * 100 + 1 / 2)
  rw [le_div_iff (by norm_num : (0 : ℚ) < 100)]
  linarith

theorem columnStat_numeric_len (data : List Row) (header : String)
    (hn : (columnStat data header).type = ColType.number) :
    isNumericCol data header = true ∧ 0 < (numericVals data header).length := by
  have hnum : isNumericCol data header = true := by
    by_contra hc
    rw [Bool.not_eq_true] at hc
    rw [columnStat_type_eq, hc] at hn
    cases hb : isBooleanCol data header <;> simp [hb] at hn
  refine ⟨hnum, ?_⟩
  unfold isNumericCol at hnum
  simp only [Bool.and_eq_true, decide_eq_true_eq] at hnum
  exact hnum.1

theorem columnStat_numeric_fields (data : List Row) (header : String)
    (hnum : isNumericCol data header = true) :
    (columnStat data header).mean = some (round2 (meanRaw data header))
    ∧ (columnStat data header).median = some (round2 (medianRaw data header))
    ∧ (columnStat data header).min = some (Value.num ((sortedNums data header).getD 0 0))
    ∧ (columnStat data header).max
        = some (Value.num ((sortedNums data header).getD ((sortedNums data header).length - 1) 0)) := by
  have h0 : 0 < (numericVals data header).length := by
    have h := hnum
    unfold isNumericCol at h
    simp only [Bool.and_eq_true, decide_eq_true_eq] at h
    exact h.1
  unfold columnStat
  dsimp only
  rw [if_pos]
  · exact ⟨rfl, rfl, rfl, rfl⟩
  · simp [hnum, h0]

/-- A column of two copies of 1.001: the profiler reports mean 1 (rounded to
two decimals), strictly below the reported minimum 1.001. -/
def exData4 : List Row :=
  [[("a", Value.num (1001 / 1000))], [("a", Value.num (1001 / 1000))]]

/-- C4 counterexample: for `exData4`, `min = 1.001` yet the reported (rounded)
`mean = 1 < min`, refuting `min ≤ mean`. -/
theorem C4_counterexample :
    (columnStat exData4 "a").type = ColType.number
    ∧ (columnStat exData4 "a").min = some (Value.num (1001 / 1000))
    ∧ (columnStat exData4 "a").mean = some 1
    ∧ (1 : ℚ) < 1001 / 1000 := by
  refine ⟨by decide, by decide, by decide, by norm_num⟩

/-- C4, amended: for a numeric column, the *unrounded* mean and median lie
between the reported min and max; the *reported* mean and median, which the
code rounds to two decimals, lie within `1/200` of that interval. -/
theorem C4_amended (data : List Row) (header : String)
    (hn : (columnStat data header).type = ColType.number) :
    (columnStat data header).min = some (Value.num ((sortedNums data header).getD 0 0))
    ∧ (columnStat data header).max
        = some (Value.num ((sortedNums data header).getD ((sortedNums data header).length - 1) 0))
    ∧ (sortedNums data header).getD 0 0 ≤ meanRaw data header
    ∧ meanRaw data header ≤ (sortedNums data header).getD ((sortedNums data header).length - 1) 0
    ∧ (sortedNums data header).getD 0 0 ≤ medianRaw data header
    ∧ medianRaw data header ≤ (sortedNums data header).getD ((sortedNums data header).length - 1) 0
    ∧ (columnStat data header).mean = some (round2 (meanRaw data header))
    ∧ (columnStat data header).median = some (round2 (medianRaw data header))
    ∧ (sortedNums data header).getD 0 0 - 1 / 200 ≤ round2 (meanRaw data header)
    ∧ round2 (meanRaw data header)
        ≤ (sortedNums data header).getD ((sortedNums data header).length - 1) 0 + 1 / 200
    ∧ (sortedNums data header).getD 0 0 - 1 / 200 ≤ round2 (medianRaw data header)
    ∧ round2 (medianRaw data header)
        ≤ (sortedNums data header).getD ((sortedNums data header).length - 1) 0 + 1 / 200 := by
  obtain ⟨hnum, hpos⟩ := columnStat_numeric_len data header hn
  obtain ⟨hmean, hmedian, hmin, hmax⟩ := columnStat_numeric_fields data header hnum
  set l := sortedNums data header with hl
  have hs : l.Sorted (· ≤ ·) := List.sorted_insertionSort _ _
  have hperm : l.Perm (numericVals data header) := List.perm_insertionSort _ _
  have hlen : l.length = (numericVals data header).length := hperm.length_eq
  have hposl : 0 < l.length := by omega
  set a := l.getD 0 0 with ha
  set b := l.getD (l.length - 1) 0 with hb
  have hbounds : ∀ x ∈ numericVals data header, a ≤ x ∧ x ≤ b := by
    intro x hx
    exact mem_sorted_bounds hs (hperm.mem_iff.mpr hx)
  -- mean bounds
  have hsum := foldl_add_bounds (numericVals data header) a b hbounds
  have hcast : (0 : ℚ) < ((numericVals data header).length : ℚ) := by
    exact_mod_cast hpos
  have hmeanb : a ≤ meanRaw data header ∧ meanRaw data header ≤ b := by
    unfold meanRaw sumNums
    constructor
    · rw [le_div_iff hcast]
      calc a * ((numericVals data header).length : ℚ)
          = ((numericVals data header).length : ℚ) * a := by ring
        _ ≤ _ := hsum.1
    · rw [div_le_iff hcast]
      calc (numericVals data header).foldl (· + ·) 0
          ≤ ((numericVals data header).length : ℚ) * b := hsum.2
        _ = b * ((numericVals data header).length : ℚ) := by ring
  -- median bounds
  have hmedb : a ≤ medianRaw data header ∧ medianRaw data header ≤ b := by
    unfold medianRaw
    dsimp only
    rw [← hl, ← hlen]
    split
    · rename_i hev
      have h2 : 2 ≤ l.length := by
        rcases Nat.lt_or_ge l.length 2 with h | h
        · interval_cases hll : l.length <;> omega
        · exact h
      have e1 : a ≤ l.getD (l.length / 2 - 1) 0 :=
        sorted_getD_le l hs (Nat.zero_le _) (by omega)
      have e2 : l.getD (l.length / 2 - 1) 0 ≤ b :=
        sorted_getD_le l hs (by omega) (by omega)
      have e3 : a ≤ l.getD (l.length / 2) 0 :=
        sorted_getD_le l hs (Nat.zero_le _) (by omega)
      have e4 : l.getD (l.length / 2) 0 ≤ b :=
        sorted_getD_le l hs (by omega) (by omega)
      constructor <;> linarith
    · have e3 : a ≤ l.getD (l.length / 2) 0 :=
        sorted_getD_le l hs (Nat.zero_le _) (by omega)
      have e4 : l.getD (l.length / 2) 0 ≤ b :=
        sorted_getD_le l hs (by omega) (by omega)
      exact ⟨e3, e4⟩
  have r1 := round2_le_add (meanRaw data header)
  have r2 := sub_le_round2 (meanRaw data header)
  have r3 := round2_le_add (medianRaw data header)
  have r4 := sub_le_round2 (medianRaw data header)
  refine ⟨hmin, hmax, hmeanb.1, hmeanb.2, hmedb.1, hmedb.2, hmean, hmedian, ?_, ?_, ?_, ?_⟩
  · linarith [hmeanb.1]
  · linarith [hmeanb.2]
  · linarith [hmedb.1]
  · linarith [hmedb.2]

theorem C4_amended_witness :
    (columnStat [[("a", Value.num 1)], [("a", Value.num 3)]] "a").type = ColType.number
    ∧ (sortedNums [[("a", Value.num 1)], [("a", Value.num 3)]] "a").getD 0 0
        ≤ meanRaw [[("a", Value.num 1)], [("a", Value.num 3)]] "a" :=
  ⟨by decide, (C4_amended [[("a", Value.num 1)], [("a", Value.num 3)]] "a" (by decide)).2.2.1⟩

/-- A single-value numeric column holding 1.001. -/
def exData5 : List Row := [[("a", Value.num (1001 / 1000))]]

/-- C5 counterexample: for the one-element column `[1.001]` the middle element
of the sorted values is `1.001`, but the profiler reports `median = 1`: the
code applies `toFixed(2)` to the median as well, not only to the mean. -/
theorem C5_counterexample :
    (columnStat exData5 "a").median = some 1
    ∧ sortedNums exData5 "a" = [1001 / 1000]
    ∧ (1 : ℚ) ≠ 1001 / 1000 := by
  refine ⟨by decide, by decide, by norm_num⟩

/-- C5, amended: for a numeric column the profiler sorts the numeric values
ascending, reports `median` as the middle element (average of the two central
ones for even counts) *rounded to two decimals* — the rounding applies to the
median as well as the mean — `mean` as the rounded arithmetic mean, and
`min`/`max` as the unrounded sorted extremes. -/
theorem C5_amended (data : List Row) (header : String)
    (hn : (columnStat data header).type = ColType.number) :
    (sortedNums data header).Sorted (· ≤ ·)
    ∧ (sortedNums data header).Perm (numericVals data header)
    ∧ (columnStat data header).median = some (round2 (medianRaw data header))
    ∧ medianRaw data header =
        (if (numericVals data header).length % 2 = 0 then
          ((sortedNums data header).getD ((numericVals data header).length / 2 - 1) 0
            + (sortedNums data header).getD ((numericVals data header).length / 2) 0) / 2
        else (sortedNums data header).getD ((numericVals data header).length / 2) 0)
    ∧ (columnStat data header).mean
        = some (round2 ((numericVals data header).foldl (· + ·) 0
            / ((numericVals data header).length : ℚ)))
    ∧ (columnStat data header).min = some (Value.num ((sortedNums data header).getD 0 0))
    ∧ (columnStat data header).max
        = some (Value.num ((sortedNums data header).getD ((sortedNums data header).length - 1) 0)) := by
  obtain ⟨hnum, hpos⟩ := columnStat_numeric_len data header hn
  obtain ⟨hmean, hmedian, hmin, hmax⟩ := columnStat_numeric_fields data header hnum
  exact ⟨List.sorted_insertionSort _ _, List.perm_insertionSort _ _, hmedian, rfl, hmean,
    hmin, hmax⟩

theorem C5_amended_witness :
    (columnStat [[("a", Value.num 2)], [("a", Value.num 4)]] "a").type = ColType.number
    ∧ (columnStat [[("a", Value.num 2)], [("a", Value.num 4)]] "a").median
        = some (round2 (medianRaw [[("a", Value.num 2)], [("a", Value.num 4)]] "a")) :=
  ⟨by decide, (C5_amended [[("a", Value.num 2)], [("a", Value.num 4)]] "a" (by decide)).2.2.1⟩

/-! ### Empty and all-missing columns (C8) -/

/-- C8 counterexample: for an empty row set — the only way a column can have
no values at all — the profiler returns an *empty list* of `ColumnStats`, so
no record with zero counts is produced, contradicting the claim that an empty
column yields a `ColumnStats` with zero counts and absent statistics. -/
theorem C8_counterexample :
    columnStats ([] : List Row) ["a"] = [] := by
  decide

/-- C8, amended: the profiler raises no error on degenerate input; for an
empty row set it yields an empty list of `ColumnStats` (no per-column record
at all), and for a column of a non-empty dataset whose cells are all missing
it yields a record with `validCount = 0`, `missingCount = totalCount =`
number of rows, and `mean`, `median`, `min`, `max` all absent. -/
theorem C8_amended (hs : List String) (data : List Row) (header : String)
    (hne : data ≠ []) (hmiss : ∀ r ∈ data, isMissingV (getField r header)) :
    columnStats ([] : List Row) hs = []
    ∧ (columnStat data header).validCount = 0
    ∧ (columnStat data header).missingCount = data.length
    ∧ (columnStat data header).totalRows = data.length
    ∧ (columnStat data header).mean = none
    ∧ (columnStat data header).median = none
    ∧ (columnStat data header).min = none
    ∧ (columnStat data header).max = none := by
  have hvalid : validVals data header = [] := by
    unfold validVals
    rw [List.filter_eq_nil]
    intro v hv
    simp only [allVals, List.mem_map] at hv
    obtain ⟨r, hr, rfl⟩ := hv
    simp [hmiss r hr]
  have hnum : numericVals data header = [] := by
    unfold numericVals
    rw [hvalid]
    rfl
  have hall : (allVals data header).length = data.length := by simp [allVals]
  have hbase : (columnStat data header) =
      { header := header
        type :=
          if isNumericCol data header then ColType.number
          else if isBooleanCol data header then ColType.boolean
          else ColType.string
        validCount := (validVals data header).length
        missingCount := (allVals data header).length - (validVals data header).length
        totalRows := (allVals data header).length } := by
    unfold columnStat
    dsimp only
    rw [if_neg, if_neg]
    · simp [hvalid]
    · simp [isNumericCol, hnum]
  refine ⟨by simp [columnStats], ?_, ?_, ?_, ?_, ?_, ?_, ?_⟩ <;>
    simp [hbase, hvalid, hall]

theorem C8_amended_witness :
    ([([("a", Value.null)])] : List Row) ≠ []
    ∧ (columnStats ([] : List Row) ["a"] = []
      ∧ (columnStat [([("a", Value.null)])] "a").validCount = 0
      ∧ (columnStat [([("a", Value.null)])] "a").missingCount
          = ([([("a", Value.null)])] : List Row).length
      ∧ (columnStat [([("a", Value.null)])] "a").totalRows
          = ([([("a", Value.null)])] : List Row).length
      ∧ (columnStat [([("a", Value.null)])] "a").mean = none
      ∧ (columnStat [([("a", Value.null)])] "a").median = none
      ∧ (columnStat [([("a", Value.null)])] "a").min = none
      ∧ (columnStat [([("a", Value.null)])] "a").max = none) :=
  ⟨by decide, C8_amended ["a"] [([("a", Value.null)])] "a" (by decide) (by decide)⟩

/-! ### Heap-level model of the profiler (C9)

The JavaScript `columnStats` memo reads the row set and calls the in-place
`Array.prototype.sort`, but only on arrays freshly created inside the memo
(`.map` / `.filter` results and `[...]` spread copies).  To state that the
inputs are never mutated, this section renders the memo as a program over an
explicit heap of arrays and row objects, with `sort` as an in-place write. -/

/-- A heap object: an array of cell values, or a row object. -/
inductive HObj where
  | arr (xs : List Value)
  | row (fs : List (String × Value))
deriving DecidableEq, Repr

abbrev Heap := List HObj

def hget (h : Heap) (r : Nat) : HObj := (h.get? r).getD (HObj.arr [])

/-- Allocate a fresh object; returns the new heap and the fresh reference. -/
def halloc (h : Heap) (o : HObj) : Heap × Nat := (h ++ [o], h.length)

def hwrite (h : Heap) (r : Nat) (o : HObj) : Heap := h.set r o

/-- `row[k]` through the heap. -/
def readRowField (h : Heap) (r : Nat) (k : String) : Value :=
  match hget h r with
  | HObj.row fs => getField fs k
  | HObj.arr _ => Value.undef

/-- The comparator key of `sort((a, b) => a - b)` on numeric cells. -/
def numKey : Value → ℚ
  | Value.num q => q
  | _ => 0

instance : DecidableRel fun a b : Value => numKey a ≤ numKey b :=
  fun a b => inferInstanceAs (Decidable (numKey a ≤ numKey b))

instance : DecidableRel fun a b : Value => stringOfValue a ≤ stringOfValue b :=
  fun a b => inferInstanceAs (Decidable (stringOfValue a ≤ stringOfValue b))

/-- In-place `arr.sort((a, b) => a - b)`. -/
def sortNumInPlace (h : Heap) (r : Nat) : Heap :=
  match hget h r with
  | HObj.arr xs => hwrite h r (HObj.arr (xs.insertionSort fun a b => numKey a ≤ numKey b))
  | _ => h

/-- In-place default `arr.sort()` (string comparison). -/
def sortStrInPlace (h : Heap) (r : Nat) : Heap :=
  match hget h r with
  | HObj.arr xs =>
      hwrite h r (HObj.arr (xs.insertionSort fun a b => stringOfValue a ≤ stringOfValue b))
  | _ => h

/-- Heap-level rendering of the per-column body of `columnStats`
(`DataStudio.tsx` lines 185-224): each array the source creates (`.map`,
`.filter`, `[...]` spread, `.map(String)`) is a fresh allocation, and the two
`.sort(...)` calls are in-place writes on their receivers, exactly as in
JavaScript; row objects are only read. -/
def columnStatHeap (h0 : Heap) (dataRefs : List Nat) (header : String) :
    ColumnStats × Heap :=
  let allValues := dataRefs.map fun r => readRowField h0 r header
  let a1 := halloc h0 (HObj.arr allValues)
  let validValues := allValues.filter fun v => !isMissingV v
  let a2 := halloc a1.1 (HObj.arr validValues)
  let numericValues := validValues.filter fun v =>
    match v with | Value.num _ => true | _ => false
  let a3 := halloc a2.1 (HObj.arr numericValues)
  let nums := numericValues.filterMap fun v =>
    match v with | Value.num q => some q | _ => none
  let isNumeric := decide (0 < nums.length) && decide (validValues.length < 2 * nums.length)
  let isBoolean := validValues.all isBooleanishV
  let base : ColumnStats :=
    { header := header
      type := if isNumeric then ColType.number
              else if isBoolean then ColType.boolean else ColType.string
      validCount := validValues.length
      missingCount := allValues.length - validValues.length
      totalRows := allValues.length }
  if isNumeric && decide (0 < nums.length) then
    let a4 := halloc a3.1 (HObj.arr numericValues)
    let h5 := sortNumInPlace a4.1 a4.2
    let sorted := (match hget h5 a4.2 with
      | HObj.arr xs => xs
      | _ => []).filterMap fun v => match v with | Value.num q => some q | _ => none
    let n := nums.length
    let mean := nums.foldl (· + ·) 0 / (n : ℚ)
    let median :=
      if n % 2 = 0 then (sorted.getD (n / 2 - 1) 0 + sorted.getD (n / 2) 0) / 2
      else sorted.getD (n / 2) 0
    ({ base with
        mean := some (round2 mean)
        median := some (round2 median)
        min := some (Value.num (sorted.getD 0 0))
        max := some (Value.num (sorted.getD (sorted.length - 1) 0)) }, h5)
  else if decide (0 < validValues.length) then
    let a4 := halloc a3.1 (HObj.arr validValues)
    let strVals := (match hget a4.1 a4.2 with
      | HObj.arr xs => xs
      | _ => []).map fun v => Value.str (stringOfValue v)
    let a5 := halloc a4.1 (HObj.arr strVals)
    let h6 := sortStrInPlace a5.1 a5.2
    let sortedS := match hget h6 a5.2 with | HObj.arr xs => xs | _ => []
    ({ base with
        min := some (Value.str (stringOfValue (sortedS.getD 0 (Value.str ""))))
        max := some (Value.str (stringOfValue (sortedS.getD (sortedS.length - 1) (Value.str "")))) },
      h6)
  else (base, a3.1)

/-- One step of the per-header loop: compute the column's record on the
current heap, push it, and carry the evolved heap. -/
def statStep (dataRefs : List Nat) (acc : List ColumnStats × Heap) (k : String) :
    List ColumnStats × Heap :=
  (acc.1 ++ [(columnStatHeap acc.2 dataRefs k).1], (columnStatHeap acc.2 dataRefs k).2)

/-- The profiler over all columns (`orderedHeaders.forEach`), threading the
heap through the per-column computations; empty data short-circuits. -/
def columnStatsHeap (h : Heap) (dataRefs : List Nat) (headers : List String) :
    List ColumnStats × Heap :=
  if dataRefs.length = 0 then ([], h)
  else headers.foldl (statStep dataRefs) ([], h)

theorem halloc_frame (h : Heap) (o : HObj) {r : Nat} (hr : r < h.length) :
    (halloc h o).1.get? r = h.get? r := by
  unfold halloc
  exact List.get?_append hr

theorem hwrite_frame (h : Heap) (i : Nat) (o : HObj) {r : Nat} (hne : i ≠ r) :
    (hwrite h i o).get? r = h.get? r := by
  unfold hwrite
  rw [List.get?_set_ne]
  exact hne

theorem sortNumInPlace_frame (h : Heap) (i : Nat) {r : Nat} (hne : i ≠ r) :
    (sortNumInPlace h i).get? r = h.get? r := by
  unfold sortNumInPlace
  split
  · exact hwrite_frame _ _ _ hne
  · rfl

theorem sortStrInPlace_frame (h : Heap) (i : Nat) {r : Nat} (hne : i ≠ r) :
    (sortStrInPlace h i).get? r = h.get? r := by
  unfold sortStrInPlace
  split
  · exact hwrite_frame _ _ _ hne
  · rfl

theorem sortNumInPlace_length (h : Heap) (i : Nat) :
    (sortNumInPlace h i).length = h.length := by
  unfold sortNumInPlace
  split
  · simp [hwrite]
  · rfl

theorem sortStrInPlace_length (h : Heap) (i : Nat) :
    (sortStrInPlace h i).length = h.length := by
  unfold sortStrInPlace
  split
  · simp [hwrite]
  · rfl

theorem columnStatHeap_frame (h0 : Heap) (dataRefs : List Nat) (header : String)
    {r : Nat} (hr : r < h0.length) :
    ((columnStatHeap h0 dataRefs header).2).get? r = h0.get? r
    ∧ h0.length ≤ ((columnStatHeap h0 dataRefs header).2).length := by
  unfold columnStatHeap
  dsimp only
  split
  · -- numeric branch: three allocations, a spread copy, one in-place sort
    constructor
    · rw [sortNumInPlace_frame _ _ (by simp [halloc] <;> omega),
        halloc_frame _ _ (by simp [halloc] <;> omega),
        halloc_frame _ _ (by simp [halloc] <;> omega),
        halloc_frame _ _ (by simp [halloc] <;> omega),
        halloc_frame _ _ hr]
    · rw [sortNumInPlace_length]
      simp [halloc] <;> omega
  · split
    · -- string branch: four allocations and one in-place sort
      constructor
      · rw [sortStrInPlace_frame _ _ (by simp [halloc] <;> omega),
          halloc_frame _ _ (by simp [halloc] <;> omega),
          halloc_frame _ _ (by simp [halloc] <;> omega),
          halloc_frame _ _ (by simp [halloc] <;> omega),
          halloc_frame _ _ (by simp [halloc] <;> omega),
          halloc_frame _ _ hr]
      · rw [sortStrInPlace_length]
        simp [halloc] <;> omega
    · -- no sort at all: three allocations
      constructor
      · rw [halloc_frame _ _ (by simp [halloc] <;> omega),
          halloc_frame _ _ (by simp [halloc] <;> omega),
          halloc_frame _ _ hr]
      · simp [halloc] <;> omega

theorem columnStatsHeap_foldl_frame (dataRefs : List Nat) (headers : List String) :
    ∀ (acc : List ColumnStats) (h : Heap) (r : Nat), r < h.length →
      ((headers.foldl (statStep dataRefs) (acc, h)).2).get? r = h.get? r
      ∧ h.length ≤ ((headers.foldl (statStep dataRefs) (acc, h)).2).length := by
  induction headers with
  | nil => intro acc h r hr; exact ⟨rfl, le_refl _⟩
  | cons k ks ih =>
    intro acc h r hr
    simp only [List.foldl_cons, statStep]
    obtain ⟨hstep, hlen⟩ := columnStatHeap_frame h dataRefs k hr
    have hr' : r < ((columnStatHeap h dataRefs k).2).length := by omega
    obtain ⟨hrec, hreclen⟩ := ih (acc ++ [(columnStatHeap h dataRefs k).1])
      ((columnStatHeap h dataRefs k).2) r hr'
    exact ⟨hrec.trans hstep, by omega⟩

/-- C9: the Column Profiler does not mutate its inputs: for every initial heap
(holding the row objects and any caller-owned arrays), after computing
`ColumnStats` for all columns, every pre-existing heap object — in particular
every row and every cell of the input row set — is unchanged; the in-place
sorts only ever write to arrays allocated inside the profiler (the spread
copies and fresh `.map`/`.filter` results). -/
theorem C9_no_input_mutation (h0 : Heap) (dataRefs : List Nat) (headers : List String)
    (r : Nat) (hr : r < h0.length) :
    ((columnStatsHeap h0 dataRefs headers).2).get? r = h0.get? r := by
  unfold columnStatsHeap
  split
  · rfl
  · exact (columnStatsHeap_foldl_frame dataRefs headers [] h0 r hr).1

theorem C9_no_input_mutation_witness :
    0 < ([HObj.row [("a", Value.num 1)], HObj.row [("a", Value.num 3)]] : Heap).length
    ∧ ((columnStatsHeap [HObj.row [("a", Value.num 1)], HObj.row [("a", Value.num 3)]]
          [0, 1] ["a"]).2).get? 0
        = ([HObj.row [("a", Value.num 1)], HObj.row [("a", Value.num 3)]] : Heap).get? 0 :=
  ⟨by decide,
   C9_no_input_mutation [HObj.row [("a", Value.num 1)], HObj.row [("a", Value.num 3)]]
     [0, 1] ["a"] 0 (by decide)⟩

/-! ### Chart Data Dispatcher and Grouping Engine (C1, C7)

`processChartData` lives in `src/utils/chartUtils.ts`, which is not among the
provided sources — only its callers (`Dashboard.tsx`, `Visualization.tsx`)
are.  The definitions below are modelled from the specification
(sections 4.3-4.7), as their doc comments state. -/

inductive AggregationType where
  | sum
  | avg
  | min
  | max
  | count
deriving DecidableEq, Repr

/-- Modelled from the spec: the chart configuration (`ChartConfig` in
`src/types.ts`).  The chart type is kept as a raw string so that the
dispatcher's behaviour on an *unrecognized* type tag is statable. -/
structure ChartConfig where
  type : String
  xAxisKey : String
  yAxisKeys : List String
  zAxisKey : Option String := none
  aggregation : Option AggregationType := none
deriving DecidableEq, Repr

/-- Modelled from the spec: the uniform output record (section 3), one payload
shape per chart family; records that the spec gives no `name` carry `""`. -/
inductive Payload where
  | count (n : ℚ)
  | aggs (kvs : List (String × Option ℚ))
  | point (x y : ℚ) (z : Option ℚ)
  | box (min q1 median q3 max : ℚ)
  | cell (x y : String) (v : ℚ)
deriving DecidableEq, Repr

structure OutputRecord where
  name : String
  payload : Payload
deriving DecidableEq, Repr

/-- Modelled from the spec (section 4.3 step 1): the category label of a row —
the string form of `row[categoryKey]`, with missing values mapped to the
stable null-label `"null"`. -/
def labelOf (row : Row) (k : String) : String :=
  let v := getField row k
  if isMissingV v then "null" else stringOfValue v

/-- Modelled from the spec (section 4.3 step 2): insert a row into the bucket
for its label, appending a new bucket at the end on first sight of the label
(first-seen order). -/
def addToBuckets (bs : List (String × List Row)) (l : String) (r : Row) :
    List (String × List Row) :=
  if l ∈ bs.map Prod.fst then bs.map fun p => if p.1 = l then (p.1, p.2 ++ [r]) else p
  else bs ++ [(l, [r])]

def buildBuckets (rows : List Row) (k : String) : List (String × List Row) :=
  rows.foldl (fun bs r => addToBuckets bs (labelOf r k) r) []

/-- Modelled from the spec (section 4.3 steps 3-4): the numeric-valid
contributions of a bucket for one value key, via `asNumber`. -/
def aggValues (rows : List Row) (vk : String) : List ℚ :=
  rows.filterMap fun r => asNumber (getField r vk)

/-- Modelled from the spec (section 4.3 step 4): reduce a bucket to one number
per value key; `sum` of no valid contributions is `0`, `avg` is `0`, `min` and
`max` are omitted, `count` counts the bucket's rows regardless of validity. -/
def applyAgg (agg : AggregationType) (rows : List Row) (vk : String) : Option ℚ :=
  let qs := aggValues rows vk
  match agg with
  | AggregationType.sum => some (qs.foldl (· + ·) 0)
  | AggregationType.avg =>
      some (if qs.length = 0 then 0 else qs.foldl (· + ·) 0 / (qs.length : ℚ))
  | AggregationType.min =>
      match qs with
      | [] => none
      | x :: xs => some (xs.foldl Min.min x)
  | AggregationType.max =>
      match qs with
      | [] => none
      | x :: xs => some (xs.foldl Max.max x)
  | AggregationType.count => some (rows.length : ℚ)

/-- Modelled from the spec (section 4.3 step 5): empty `valueKeys` yields a
plain row count per bucket, otherwise one entry per value key. -/
def mkGroupRecord (cfg : ChartConfig) (l : String) (rows : List Row) : OutputRecord :=
  if cfg.yAxisKeys.isEmpty then ⟨l, Payload.count (rows.length : ℚ)⟩
  else
    ⟨l, Payload.aggs (cfg.yAxisKeys.map fun vk =>
      (vk, applyAgg (cfg.aggregation.getD AggregationType.sum) rows vk))⟩

/-- Modelled from the spec (section 4.3): the Grouping & Aggregation Engine. -/
def groupAggregate (rows : List Row) (cfg : ChartConfig) : List OutputRecord :=
  (buildBuckets rows cfg.xAxisKey).map fun p => mkGroupRecord cfg p.1 p.2

/-- Modelled from the spec (section 4.7): scatter/bubble bypass aggregation;
rows whose required fields are not numerically coercible are dropped. -/
def scatterData (rows : List Row) (cfg : ChartConfig) : List OutputRecord :=
  rows.filterMap fun r =>
    match asNumber (getField r cfg.xAxisKey),
        asNumber (getField r (cfg.yAxisKeys.headD "")) with
    | some x, some y =>
        some ⟨"", Payload.point x y
          (if cfg.type = "bubble" then
            cfg.zAxisKey.bind fun zk => asNumber (getField r zk)
          else none)⟩
    | _, _ => none

/-- The median of an already ascending-sorted list (section 4.4). -/
def medianOfSorted (l : List ℚ) : ℚ :=
  if l.length % 2 = 0 then (l.getD (l.length / 2 - 1) 0 + l.getD (l.length / 2) 0) / 2
  else l.getD (l.length / 2) 0

/-- Modelled from the spec (section 4.4): the Distribution (Quartile)
Computer; `q1` is the median of the values with index `< floor(n/2)`, `q3` of
those with index `>= ceil(n/2)`; empty buckets are dropped. -/
def boxData (rows : List Row) (cfg : ChartConfig) : List OutputRecord :=
  (buildBuckets rows cfg.xAxisKey).filterMap fun p =>
    let qs := (aggValues p.2 (cfg.yAxisKeys.headD "")).insertionSort (· ≤ ·)
    let n := qs.length
    if n = 0 then none
    else
      some ⟨p.1, Payload.box (qs.getD 0 0) (medianOfSorted (qs.take (n / 2)))
        (medianOfSorted qs) (medianOfSorted (qs.drop ((n + 1) / 2))) (qs.getD (n - 1) 0)⟩

/-- First-seen deduplication with an explicit seen-accumulator: the reference
description of first-seen label order. -/
def firstSeenFrom {α : Type} [DecidableEq α] (seen : List α) : List α → List α
  | [] => []
  | x :: xs => if x ∈ seen then firstSeenFrom seen xs else x :: firstSeenFrom (seen ++ [x]) xs

def firstSeen {α : Type} [DecidableEq α] (l : List α) : List α := firstSeenFrom [] l

/-- Modelled from the spec (section 4.5): the Density Matrix Computer; one
record per *observed* pair of labels, in row-then-column first-seen order,
never zero-filled. -/
def densityData (rows : List Row) (cfg : ChartConfig) : List OutputRecord :=
  let k2 := cfg.yAxisKeys.headD ""
  let pairs := rows.map fun r => (labelOf r cfg.xAxisKey, labelOf r k2)
  (firstSeen pairs).map fun p => ⟨"", Payload.cell p.1 p.2 ((pairs.count p : ℚ))⟩

/-- Modelled from the spec (section 4.6): chosen membership convention — the
value passes `asBooleanish` and coerces to true (`true`, `"true"`, `1`). -/
def boolVal : Value → Bool
  | Value.bool b => b
  | Value.str "true" => true
  | Value.num q => q == 1
  | _ => false

def vennMember (r : Row) (k : String) : Bool :=
  isBooleanishV (getField r k) && boolVal (getField r k)

/-- Modelled from the spec (section 4.6): the Set Intersection Computer. -/
def vennData (rows : List Row) (cfg : ChartConfig) : List OutputRecord :=
  let kB := cfg.yAxisKeys.headD ""
  let onlyA := rows.countP fun r => vennMember r cfg.xAxisKey && !vennMember r kB
  let onlyB := rows.countP fun r => !vennMember r cfg.xAxisKey && vennMember r kB
  let both := rows.countP fun r => vennMember r cfg.xAxisKey && vennMember r kB
  [⟨"A", Payload.count (onlyA : ℚ)⟩, ⟨"B", Payload.count (onlyB : ℚ)⟩,
    ⟨"Intersection", Payload.count (both : ℚ)⟩]

def knownChartTypes : List String :=
  ["bar", "line", "area", "scatter", "bubble", "pie", "doughnut", "heatmap",
    "contour", "box", "venn"]

/-- Modelled from the spec (section 4.7 with the degrade-to-empty policy of
sections 6-8): `processChartData` (`src/utils/chartUtils.ts`, not among the
provided sources).  An empty row set or a missing `categoryKey` yields an
empty sequence; the routing is by chart type with an empty default; the
function is total by construction (never throws). -/
def processChartData (rows : List Row) (cfg : ChartConfig) : List OutputRecord :=
  if rows.isEmpty ∨ cfg.xAxisKey = "" then []
  else if cfg.type = "bar" ∨ cfg.type = "line" ∨ cfg.type = "area" ∨
      cfg.type = "pie" ∨ cfg.type = "doughnut" then
    groupAggregate rows cfg
  else if cfg.type = "scatter" ∨ cfg.type = "bubble" then scatterData rows cfg
  else if cfg.type = "box" then boxData rows cfg
  else if cfg.type = "heatmap" ∨ cfg.type = "contour" then densityData rows cfg
  else if cfg.type = "venn" then vennData rows cfg
  else []

/-- C1: the Chart Data Dispatcher is total (a total Lean function by
construction) and degrades to empty: an empty row set, a missing
`categoryKey`, or an unrecognized chart type each yield an empty output
sequence. -/
theorem C1_dispatcher_total_degrade (rows : List Row) (cfg : ChartConfig) :
    (rows = [] → processChartData rows cfg = [])
    ∧ (cfg.xAxisKey = "" → processChartData rows cfg = [])
    ∧ (cfg.type ∉ knownChartTypes → processChartData rows cfg = []) := by
  refine ⟨?_, ?_, ?_⟩
  · intro h
    subst h
    simp [processChartData]
  · intro h
    simp [processChartData, h]
  · intro h
    simp only [knownChartTypes, List.mem_cons, List.not_mem_nil, or_false] at h
    push_neg at h
    obtain ⟨h1, h2, h3, h4, h5, h6, h7, h8, h9, h10, h11⟩ := h
    unfold processChartData
    simp [h1, h2, h3, h4, h5, h6, h7, h8, h9, h10, h11]

theorem C1_dispatcher_total_degrade_witness :
    processChartData [] ⟨"bar", "a", [], none, none⟩ = []
    ∧ processChartData [[("a", Value.num 1)]] ⟨"bar", "", [], none, none⟩ = []
    ∧ processChartData [[("a", Value.num 1)]] ⟨"wobble", "a", [], none, none⟩ = [] :=
  ⟨(C1_dispatcher_total_degrade [] ⟨"bar", "a", [], none, none⟩).1 rfl,
   (C1_dispatcher_total_degrade [[("a", Value.num 1)]] ⟨"bar", "", [], none, none⟩).2.1 rfl,
   (C1_dispatcher_total_degrade [[("a", Value.num 1)]] ⟨"wobble", "a", [], none, none⟩).2.2
     (by decide)⟩

theorem addToBuckets_keys (bs : List (String × List Row)) (l : String) (r : Row) :
    (addToBuckets bs l r).map Prod.fst =
      if l ∈ bs.map Prod.fst then bs.map Prod.fst else bs.map Prod.fst ++ [l] := by
  by_cases hmem : l ∈ bs.map Prod.fst
  · rw [if_pos hmem]
    unfold addToBuckets
    rw [if_pos hmem, List.map_map]
    apply List.map_congr_left
    intro p _
    by_cases hp : p.1 = l
    · simp [hp]
    · simp [hp]
  · rw [if_neg hmem]
    unfold addToBuckets
    rw [if_neg hmem]
    simp

theorem buildBuckets_keys (k : String) :
    ∀ (rows : List Row) (bs : List (String × List Row)),
      ((rows.foldl (fun bs r => addToBuckets bs (labelOf r k) r) bs).map Prod.fst)
        = bs.map Prod.fst ++ firstSeenFrom (bs.map Prod.fst) (rows.map fun r => labelOf r k) := by
  intro rows
  induction rows with
  | nil => intro bs; simp [firstSeenFrom]
  | cons r rest ih =>
    intro bs
    simp only [List.foldl_cons, List.map_cons]
    rw [ih (addToBuckets bs (labelOf r k) r)]
    rw [addToBuckets_keys]
    by_cases hmem : labelOf r k ∈ bs.map Prod.fst
    · rw [if_pos hmem]
      conv_rhs => rw [firstSeenFrom]
      rw [if_pos hmem]
    · rw [if_neg hmem]
      conv_rhs => rw [firstSeenFrom]
      rw [if_neg hmem]
      simp

theorem mem_firstSeenFrom {α : Type} [DecidableEq α] :
    ∀ (ls seen : List α) (x : α), x ∈ firstSeenFrom seen ls ↔ x ∈ ls ∧ x ∉ seen := by
  intro ls
  induction ls with
  | nil => intro seen x; simp [firstSeenFrom]
  | cons l t ih =>
    intro seen x
    unfold firstSeenFrom
    by_cases hmem : l ∈ seen
    · rw [if_pos hmem, ih]
      constructor
      · rintro ⟨hx, hns⟩
        exact ⟨List.mem_cons_of_mem l hx, hns⟩
      · rintro ⟨hx, hns⟩
        rcases List.mem_cons.mp hx with rfl | hx
        · exact absurd hmem hns
        · exact ⟨hx, hns⟩
    · rw [if_neg hmem]
      rw [List.mem_cons, ih]
      constructor
      · rintro (rfl | ⟨hx, hns⟩)
        · exact ⟨List.mem_cons_self _ _, hmem⟩
        · refine ⟨List.mem_cons_of_mem l hx, fun hc => hns ?_⟩
          simp [hc]
      · rintro ⟨hx, hns⟩
        by_cases hxl : x = l
        · exact Or.inl hxl
        · have hx' : x ∈ t := by
            rcases List.mem_cons.mp hx with rfl | hx'
            · exact absurd rfl hxl
            · exact hx'
          refine Or.inr ⟨hx', fun hc => ?_⟩
          simp only [List.mem_append, List.mem_singleton] at hc
          rcases hc with hc | hc
          · exact hns hc
          · exact hxl hc

theorem nodup_firstSeenFrom {α : Type} [DecidableEq α] :
    ∀ (ls seen : List α), (firstSeenFrom seen ls).Nodup := by
  intro ls
  induction ls with
  | nil => intro seen; simp [firstSeenFrom]
  | cons l t ih =>
    intro seen
    unfold firstSeenFrom
    by_cases hmem : l ∈ seen
    · rw [if_pos hmem]; exact ih seen
    · rw [if_neg hmem]
      refine List.nodup_cons.mpr ⟨fun hc => ?_, ih (seen ++ [l])⟩
      have := (mem_firstSeenFrom t (seen ++ [l]) l).mp hc
      exact this.2 (by simp)

theorem mkGroupRecord_name (cfg : ChartConfig) (l : String) (rows : List Row) :
    (mkGroupRecord cfg l rows).name = l := by
  unfold mkGroupRecord
  split <;> rfl

/-- C7: for bar/line/area/pie/doughnut with a category key and a non-empty row
set, the engine emits exactly one record per distinct category label — the
output names are the first-seen deduplication of the rows' labels, in input
iteration order (not sorted), without duplicates, covering exactly the
observed labels. -/
theorem C7_group_first_seen_order (rows : List Row) (cfg : ChartConfig)
    (hrows : rows ≠ []) (hkey : cfg.xAxisKey ≠ "")
    (htype : cfg.type = "bar" ∨ cfg.type = "line" ∨ cfg.type = "area" ∨
      cfg.type = "pie" ∨ cfg.type = "doughnut") :
    ((processChartData rows cfg).map OutputRecord.name)
        = firstSeen (rows.map fun r => labelOf r cfg.xAxisKey)
    ∧ ((processChartData rows cfg).map OutputRecord.name).Nodup
    ∧ (∀ s, s ∈ (processChartData rows cfg).map OutputRecord.name ↔
        s ∈ rows.map fun r => labelOf r cfg.xAxisKey) := by
  have hdisp : processChartData rows cfg = groupAggregate rows cfg := by
    unfold processChartData
    rw [if_neg (by simp [hkey, List.isEmpty_iff, hrows]), if_pos htype]
  have hnames : (groupAggregate rows cfg).map OutputRecord.name
      = (buildBuckets rows cfg.xAxisKey).map Prod.fst := by
    unfold groupAggregate
    rw [List.map_map]
    apply List.map_congr_left
    intro p _
    exact mkGroupRecord_name cfg p.1 p.2
  have hkeys : (buildBuckets rows cfg.xAxisKey).map Prod.fst
      = firstSeen (rows.map fun r => labelOf r cfg.xAxisKey) := by
    unfold buildBuckets firstSeen
    have := buildBuckets_keys cfg.xAxisKey rows []
    simpa using this
  rw [hdisp, hnames, hkeys]
  refine ⟨rfl, nodup_firstSeenFrom _ _, fun s => ?_⟩
  unfold firstSeen
  rw [mem_firstSeenFrom]
  simp

theorem C7_group_first_seen_order_witness :
    ((processChartData
        [[("a", Value.str "x")], [("a", Value.str "y")], [("a", Value.str "x")]]
        ⟨"bar", "a", [], none, none⟩).map OutputRecord.name)
      = firstSeen ([[("a", Value.str "x")], [("a", Value.str "y")],
          [("a", Value.str "x")]].map fun r => labelOf r "a") :=
  (C7_group_first_seen_order
    [[("a", Value.str "x")], [("a", Value.str "y")], [("a", Value.str "x")]]
    ⟨"bar", "a", [], none, none⟩ (by decide) (by decide) (Or.inl rfl)).1

end AlAnalysis
